import Mathlib

/-!
Verification of the ws2811 PCM driver (`src/lib/ws2811-pcm.c`).

The driver is shallowly embedded: C `int`/`uint32_t` arithmetic on the
nonnegative ranges exercised here is modelled by `Nat`, bit operations by
`Nat` bitwise operators, the DMA transmit buffer by a function from word
index to word value, and the fallible, stateful initialization code by
explicit oracles describing which external calls succeed, together with an
explicit record of the resources held at each point.
-/

namespace WS2811

/-! ### Buffer sizing (`ws2811-pcm.c` lines 57-65) -/

/-- `#define LED_RESET_uS 55` (line 60). -/
def LED_RESET_uS : Nat := 55

/-- `LED_BIT_COUNT(leds, freq)` (lines 61-62):
`(leds * 3 * 8 * 3) + ((LED_RESET_uS * (freq * 3)) / 1000000)`. -/
def LED_BIT_COUNT (leds freq : Nat) : Nat :=
  leds * 3 * 8 * 3 + LED_RESET_uS * (freq * 3) / 1000000

/-- `PCM_BYTE_COUNT(leds, freq)` (line 65):
`((((LED_BIT_COUNT(leds, freq) >> 3) & ~0x7) + 4) + 4)`.
On the nonnegative int range, `x & ~0x7` clears the three low bits of `x`,
that is `x / 8 * 8`. -/
def PCM_BYTE_COUNT (leds freq : Nat) : Nat :=
  (LED_BIT_COUNT leds freq >>> 3) / 8 * 8 + 4 + 4

/-- Number of 32-bit words of the transmit buffer,
`PCM_BYTE_COUNT(...) / sizeof(uint32_t)` as used by `pcm_raw_init` (line 363). -/
def PCM_wordcount (leds freq : Nat) : Nat := PCM_BYTE_COUNT leds freq / 4

/-! ### Channel configuration (`ws2811-pcm.h` fields as read by `ws2811_render`) -/

/-- The per-channel data `ws2811_render` reads: led count, packed pixel values,
brightness, strip type (packing the three colour shifts) and the invert flag.
The led array is modelled as a function from index to packed pixel value. -/
structure ws2811_channel where
  count : Nat
  leds : Nat → Nat
  brightness : Nat
  strip_type : Nat
  invert : Bool

/-- `int scale = (channel->brightness & 0xff) + 1;` (line 586). -/
def ws2811_scale (ch : ws2811_channel) : Nat := (ch.brightness &&& 0xff) + 1

/-- `int rshift = (channel->strip_type >> 16) & 0xff;` (line 587). -/
def ws2811_rshift (ch : ws2811_channel) : Nat := (ch.strip_type >>> 16) &&& 0xff

/-- `int gshift = (channel->strip_type >> 8) & 0xff;` (line 588). -/
def ws2811_gshift (ch : ws2811_channel) : Nat := (ch.strip_type >>> 8) &&& 0xff

/-- `int bshift = (channel->strip_type >> 0) & 0xff;` (line 589). -/
def ws2811_bshift (ch : ws2811_channel) : Nat := (ch.strip_type >>> 0) &&& 0xff

/-- The brightness-scaled channel value fed to the gamma table (lines 594-596):
`(((led >> shift) & 0xff) * scale) >> 8`. -/
def color_scaled (led shift scale : Nat) : Nat :=
  ((led >>> shift &&& 0xff) * scale) >>> 8

/-- The three gamma-corrected, brightness-scaled colour bytes of one pixel,
in the order red, green, blue of the `color[]` array (lines 593-597).
The gamma table lives in `gamma.h` (an external collaborator) and is passed
in as a function. -/
def pixelColors (gamma : Nat → Nat) (ch : ws2811_channel) (led : Nat) : List Nat :=
  [gamma (color_scaled led (ws2811_rshift ch) (ws2811_scale ch)),
   gamma (color_scaled led (ws2811_gshift ch) (ws2811_scale ch)),
   gamma (color_scaled led (ws2811_bshift ch) (ws2811_scale ch))]

/-! ### Claim C2: properties of the sizing formula -/

/-- C2: for every ledCount and every tickRate > 0, `PCM_BYTE_COUNT` is a
multiple of 4, strictly exceeds the 9 bytes per pixel needed for the pixel
data alone (so the reset latch is always present), and at ledCount = 0 it is
still nonzero. -/
theorem pcm_byte_count_spec (c f : Nat) (hf : 0 < f) :
    PCM_BYTE_COUNT c f % 4 = 0 ∧ 9 * c < PCM_BYTE_COUNT c f ∧ 0 < PCM_BYTE_COUNT 0 f := by
  have h8 : (2 : Nat) ^ 3 = 8 := by norm_num
  unfold PCM_BYTE_COUNT LED_BIT_COUNT LED_RESET_uS
  rw [Nat.shiftRight_eq_div_pow, Nat.shiftRight_eq_div_pow, h8]
  omega

/-- Witness for C2 at ledCount = 3, tickRate = 800000. -/
theorem pcm_byte_count_spec_witness :
    0 < 800000 ∧
      (PCM_BYTE_COUNT 3 800000 % 4 = 0 ∧ 9 * 3 < PCM_BYTE_COUNT 3 800000 ∧
        0 < PCM_BYTE_COUNT 0 800000) :=
  ⟨by decide, pcm_byte_count_spec 3 800000 (by decide)⟩

/-! ### Claim C6: brightness scaling -/

/-- C6: the brightness-scaled channel value `((v & 0xff) * ((brightness & 0xff) + 1)) >> 8`
computed by `ws2811_render` never exceeds 255 (so it is a valid gamma-table
index for every brightness), and at full brightness (stored 255, scale 256)
a channel value of 255 scales to exactly 255 with no wraparound. -/
theorem brightness_scaling_spec :
    (∀ (ch : ws2811_channel) (led shift : Nat),
        color_scaled led shift (ws2811_scale ch) ≤ 255) ∧
      color_scaled 0xff 0 (ws2811_scale ⟨0, fun _ => 0, 255, 0, false⟩) = 255 := by
  constructor
  · intro ch led shift
    unfold color_scaled ws2811_scale
    rw [Nat.shiftRight_eq_div_pow _ 8]
    have h1 : led >>> shift &&& 0xff ≤ 255 := Nat.and_le_right
    have h2 : (ch.brightness &&& 0xff) + 1 ≤ 256 :=
      Nat.succ_le_succ (Nat.and_le_right)
    calc (led >>> shift &&& 0xff) * ((ch.brightness &&& 0xff) + 1) / 2 ^ 8
        ≤ 255 * 256 / 2 ^ 8 := Nat.div_le_div_right (Nat.mul_le_mul h1 h2)
      _ = 255 := by norm_num
  · decide

/-! ### The bit-packing state machine of `ws2811_render` (lines 580-624)

`ws2811_render` keeps a cursor `(wordpos, bitpos)` into the PCM DMA buffer,
`bitpos` counting down from 31, and writes one buffer bit per symbol bit.
The buffer is modelled as a function from word index to word value; the model
additionally records the list of word indices written, in order, to reason
about which memory the loop touches. -/

/-- `#define SYMBOL_HIGH 0x6` (line 67): the 1 1 0 pulse pattern. -/
def SYMBOL_HIGH : Nat := 0x6

/-- `#define SYMBOL_LOW 0x4` (line 68): the 1 0 0 pulse pattern. -/
def SYMBOL_LOW : Nat := 0x4

/-- The encoding state of `ws2811_render`: the buffer, the word cursor
`wordpos`, the bit cursor `bitpos` (31 down to 0), plus the instrumentation
list of word indices written so far. -/
structure EncState where
  buf : Nat → Nat
  wordpos : Nat
  bitpos : Nat
  writes : List Nat

/-- The read-modify-write of `*wordptr` in the innermost loop (lines 613-617):
`*wordptr &= ~(1 << bitpos); if (bit) *wordptr |= (1 << bitpos);`.
`~(1 << bitpos)` on a 32-bit word is `(2^32 - 1) ^^^ (1 <<< bitpos)`. -/
def pcm_new_word (s : EncState) (b : Bool) : Nat :=
  let w1 := s.buf s.wordpos &&& ((2 ^ 32 - 1) ^^^ (1 <<< s.bitpos))
  if b then w1 ||| (1 <<< s.bitpos) else w1

/-- One pass of the innermost loop body (lines 611-623): write the symbol bit
at `(wordpos, bitpos)`, then `bitpos--; if (bitpos < 0) { wordpos++; bitpos = 31; }`. -/
def pcm_write_bit (s : EncState) (b : Bool) : EncState :=
  if s.bitpos = 0 then
    ⟨fun i => if i = s.wordpos then pcm_new_word s b else s.buf i,
      s.wordpos + 1, 31, s.writes ++ [s.wordpos]⟩
  else
    ⟨fun i => if i = s.wordpos then pcm_new_word s b else s.buf i,
      s.wordpos, s.bitpos - 1, s.writes ++ [s.wordpos]⟩

/-- Writing a list of symbol bits in sequence. -/
def writeStream (bits : List Bool) (s : EncState) : EncState :=
  bits.foldl pcm_write_bit s

/-- Bit `q` of the buffer seen as one continuous bitstream: bit 31 of word 0
first, each word filled from its most significant bit downward. -/
def bitAt (buf : Nat → Nat) (q : Nat) : Bool :=
  (buf (q / 32)).testBit (31 - q % 32)

/-- The bitstream position of the cursor. -/
def encPos (s : EncState) : Nat := 32 * s.wordpos + (31 - s.bitpos)

lemma pcm_write_bit_bitpos_le (s : EncState) (b : Bool) (h : s.bitpos ≤ 31) :
    (pcm_write_bit s b).bitpos ≤ 31 := by
  unfold pcm_write_bit
  split <;> simp <;> omega

lemma pcm_write_bit_encPos (s : EncState) (b : Bool) (h : s.bitpos ≤ 31) :
    encPos (pcm_write_bit s b) = encPos s + 1 := by
  unfold pcm_write_bit encPos
  split <;> simp <;> omega

lemma pcm_write_bit_writes (s : EncState) (b : Bool) :
    (pcm_write_bit s b).writes = s.writes ++ [s.wordpos] := by
  unfold pcm_write_bit
  split <;> rfl

lemma pcm_write_bit_buf (s : EncState) (b : Bool) :
    (pcm_write_bit s b).buf =
      fun i => if i = s.wordpos then pcm_new_word s b else s.buf i := by
  unfold pcm_write_bit
  split <;> rfl

lemma encPos_div (s : EncState) (h : s.bitpos ≤ 31) : encPos s / 32 = s.wordpos := by
  unfold encPos
  omega

lemma testBit_pcm_new_word (s : EncState) (b : Bool) (h : s.bitpos ≤ 31)
    (j : Nat) (hj : j ≤ 31) :
    (pcm_new_word s b).testBit j =
      if j = s.bitpos then b else (s.buf s.wordpos).testBit j := by
  have hj32 : j < 32 := by omega
  have hM : ∀ i : Nat, (4294967295 : Nat).testBit i = decide (i < 32) := by
    intro i
    rw [show (4294967295 : Nat) = 2 ^ 32 - 1 by norm_num, Nat.testBit_two_pow_sub_one]
  rcases eq_or_ne j s.bitpos with rfl | hne
  · cases b <;>
      simp [pcm_new_word, Nat.one_shiftLeft, hM, Nat.testBit_two_pow, hj32]
  · cases b <;>
      simp [pcm_new_word, Nat.one_shiftLeft, hM, Nat.testBit_two_pow, hj32,
        hne, Ne.symm hne]

lemma pcm_write_bit_bitAt (s : EncState) (b : Bool) (h : s.bitpos ≤ 31) (q : Nat) :
    bitAt (pcm_write_bit s b).buf q = if q = encPos s then b else bitAt s.buf q := by
  rw [pcm_write_bit_buf]
  unfold bitAt
  dsimp only
  have hq31 : 31 - q % 32 ≤ 31 := by omega
  rcases eq_or_ne (q / 32) s.wordpos with hw | hw
  · rw [hw, if_pos rfl]
    rw [testBit_pcm_new_word s b h _ hq31]
    by_cases hbp : 31 - q % 32 = s.bitpos
    · have hqe : q = encPos s := by unfold encPos; omega
      rw [if_pos hbp, if_pos hqe]
    · have hqe : q ≠ encPos s := by unfold encPos; omega
      rw [if_neg hbp, if_neg hqe]
  · have hqe : q ≠ encPos s := by unfold encPos; omega
    simp [hw, hqe]

lemma writeStream_bitpos_le (bits : List Bool) (s : EncState) (h : s.bitpos ≤ 31) :
    (writeStream bits s).bitpos ≤ 31 := by
  induction bits generalizing s with
  | nil => exact h
  | cons b rest ih => exact ih _ (pcm_write_bit_bitpos_le s b h)

lemma writeStream_encPos (bits : List Bool) (s : EncState) (h : s.bitpos ≤ 31) :
    encPos (writeStream bits s) = encPos s + bits.length := by
  induction bits generalizing s with
  | nil => rfl
  | cons b rest ih =>
      have hstep : writeStream (b :: rest) s = writeStream rest (pcm_write_bit s b) := rfl
      rw [hstep, ih _ (pcm_write_bit_bitpos_le s b h), pcm_write_bit_encPos s b h,
        List.length_cons]
      omega

lemma writeStream_writes (bits : List Bool) (s : EncState) (h : s.bitpos ≤ 31) :
    (writeStream bits s).writes =
      s.writes ++ (List.range bits.length).map (fun t => (encPos s + t) / 32) := by
  induction bits generalizing s with
  | nil => simp [writeStream]
  | cons b rest ih =>
      have hstep : writeStream (b :: rest) s = writeStream rest (pcm_write_bit s b) := rfl
      rw [hstep, ih _ (pcm_write_bit_bitpos_le s b h), pcm_write_bit_writes,
        pcm_write_bit_encPos s b h, List.length_cons, List.range_succ_eq_map,
        List.map_cons, List.map_map, List.append_assoc, List.singleton_append]
      have hfun : ((fun t => (encPos s + t) / 32) ∘ Nat.succ) =
          fun t => (encPos s + 1 + t) / 32 := by
        funext t
        simp only [Function.comp]
        congr 1
        omega
      rw [hfun]
      have hw : (encPos s + 0) / 32 = s.wordpos := by
        rw [Nat.add_zero, encPos_div s h]
      rw [hw]

lemma writeStream_bitAt (bits : List Bool) (s : EncState) (h : s.bitpos ≤ 31) (q : Nat) :
    bitAt (writeStream bits s).buf q =
      if encPos s ≤ q ∧ q < encPos s + bits.length then bits.getD (q - encPos s) false
      else bitAt s.buf q := by
  induction bits generalizing s with
  | nil =>
      have hnil : writeStream [] s = s := rfl
      rw [hnil, List.length_nil, if_neg (by omega)]
  | cons b rest ih =>
      have hstep : writeStream (b :: rest) s = writeStream rest (pcm_write_bit s b) := rfl
      rw [hstep, ih _ (pcm_write_bit_bitpos_le s b h), pcm_write_bit_encPos s b h,
        pcm_write_bit_bitAt s b h q, List.length_cons]
      by_cases hin : encPos s ≤ q ∧ q < encPos s + (rest.length + 1)
      · rw [if_pos hin]
        rcases eq_or_ne q (encPos s) with rfl | hne
        · rw [if_neg (by omega), if_pos rfl]
          simp
        · have hk : q - encPos s = (q - (encPos s + 1)) + 1 := by omega
          rw [hk, List.getD_cons_succ, if_pos ⟨by omega, by omega⟩]
      · rw [if_neg hin, if_neg (by omega), if_neg (by omega)]

/-! ### The nested encoding loops of `ws2811_render` (lines 591-627) -/

/-- The symbol chosen for one data bit (lines 603-607):
`symbol = invert ? SYMBOL_HIGH : SYMBOL_LOW; if (bit) symbol = invert ? SYMBOL_LOW : SYMBOL_HIGH;`. -/
def ws2811_symbol (invert : Bool) (bit : Bool) : Nat :=
  if bit then (if invert then SYMBOL_LOW else SYMBOL_HIGH)
  else (if invert then SYMBOL_HIGH else SYMBOL_LOW)

/-- The symbol loop `for (l = 2; l >= 0; l--)` (lines 609-624): write the
three bits of the symbol, condition `symbol & (1 << l)`. -/
def encodeSymbol (sym : Nat) (s : EncState) : EncState :=
  [2, 1, 0].foldl (fun st l => pcm_write_bit st (sym &&& (1 <<< l) != 0)) s

/-- The bit loop `for (k = 7; k >= 0; k--)` (lines 601-625): one symbol per
data bit of the colour byte, most significant bit first, condition
`color[j] & (1 << k)`. -/
def encodeByte (invert : Bool) (byte : Nat) (s : EncState) : EncState :=
  [7, 6, 5, 4, 3, 2, 1, 0].foldl
    (fun st k => encodeSymbol (ws2811_symbol invert (byte &&& (1 <<< k) != 0)) st) s

/-- The colour loop `for (j = 0; j < ARRAY_SIZE(color); j++)` (lines 599-626). -/
def encodePixel (gamma : Nat → Nat) (ch : ws2811_channel) (led : Nat) (s : EncState) :
    EncState :=
  (pixelColors gamma ch led).foldl (fun st c => encodeByte ch.invert c st) s

/-- The led loop `for (i = 0; i < channel->count; i++)` (lines 591-627),
generalized over the number of leds encoded. -/
def encodeLeds (gamma : Nat → Nat) (ch : ws2811_channel) (n : Nat) (s : EncState) :
    EncState :=
  (List.range n).foldl (fun st i => encodePixel gamma ch (ch.leds i) st) s

/-- The initial encoding state of `ws2811_render`:
`int bitpos = 31; int wordpos = 0;` (lines 580, 585). -/
def initEncState (buf : Nat → Nat) : EncState := ⟨buf, 0, 31, []⟩

/-- The whole encoding phase of `ws2811_render` on a buffer. -/
def ws2811_encode (gamma : Nat → Nat) (ch : ws2811_channel) (buf : Nat → Nat) :
    EncState :=
  encodeLeds gamma ch ch.count (initEncState buf)

/-! ### The same encoding as one flat bitstream -/

/-- The three bits of a symbol, most significant first. -/
def symBits (sym : Nat) : List Bool :=
  [2, 1, 0].map (fun l => sym &&& (1 <<< l) != 0)

/-- The 24 bitstream bits of one colour byte. -/
def byteStream (invert : Bool) (byte : Nat) : List Bool :=
  ([7, 6, 5, 4, 3, 2, 1, 0].map
    (fun k => symBits (ws2811_symbol invert (byte &&& (1 <<< k) != 0)))).flatten

/-- The 72 bitstream bits of one pixel. -/
def pixelStream (gamma : Nat → Nat) (ch : ws2811_channel) (led : Nat) : List Bool :=
  ((pixelColors gamma ch led).map (byteStream ch.invert)).flatten

/-- The bitstream of the first `n` pixels. -/
def ledStream (gamma : Nat → Nat) (ch : ws2811_channel) : Nat → List Bool
  | 0 => []
  | n + 1 => ledStream gamma ch n ++ pixelStream gamma ch (ch.leds n)

lemma writeStream_append (a b : List Bool) (s : EncState) :
    writeStream (a ++ b) s = writeStream b (writeStream a s) := by
  unfold writeStream
  exact List.foldl_append ..

lemma writeStream_flatten (L : List (List Bool)) (s : EncState) :
    writeStream L.flatten s = L.foldl (fun st bs => writeStream bs st) s := by
  induction L generalizing s with
  | nil => rfl
  | cons a rest ih =>
      rw [List.flatten_cons, writeStream_append, ih, List.foldl_cons]

lemma encodeSymbol_eq (sym : Nat) (s : EncState) :
    encodeSymbol sym s = writeStream (symBits sym) s := by
  unfold encodeSymbol symBits writeStream
  rw [List.foldl_map]

lemma encodeByte_eq (invert : Bool) (byte : Nat) (s : EncState) :
    encodeByte invert byte s = writeStream (byteStream invert byte) s := by
  unfold encodeByte byteStream
  rw [writeStream_flatten, List.foldl_map]
  simp only [encodeSymbol_eq]

lemma encodePixel_eq (gamma : Nat → Nat) (ch : ws2811_channel) (led : Nat)
    (s : EncState) :
    encodePixel gamma ch led s = writeStream (pixelStream gamma ch led) s := by
  unfold encodePixel pixelStream
  rw [writeStream_flatten, List.foldl_map]
  simp only [encodeByte_eq]

lemma encodeLeds_eq (gamma : Nat → Nat) (ch : ws2811_channel) (n : Nat)
    (s : EncState) :
    encodeLeds gamma ch n s = writeStream (ledStream gamma ch n) s := by
  induction n with
  | zero => rfl
  | succ m ih =>
      have hsucc : encodeLeds gamma ch (m + 1) s =
          encodePixel gamma ch (ch.leds m) (encodeLeds gamma ch m s) := by
        unfold encodeLeds
        rw [List.range_succ, List.foldl_append, List.foldl_cons, List.foldl_nil]
      have hstream : ledStream gamma ch (m + 1) =
          ledStream gamma ch m ++ pixelStream gamma ch (ch.leds m) := rfl
      rw [hsucc, ih, encodePixel_eq, hstream, writeStream_append]

lemma symBits_length (sym : Nat) : (symBits sym).length = 3 := rfl

lemma byteStream_length (invert : Bool) (byte : Nat) :
    (byteStream invert byte).length = 24 := by
  unfold byteStream
  rw [List.length_flatten]
  simp [symBits]

lemma pixelStream_length (gamma : Nat → Nat) (ch : ws2811_channel) (led : Nat) :
    (pixelStream gamma ch led).length = 72 := by
  unfold pixelStream pixelColors
  rw [List.length_flatten]
  simp [byteStream_length]

lemma ledStream_length (gamma : Nat → Nat) (ch : ws2811_channel) (n : Nat) :
    (ledStream gamma ch n).length = 72 * n := by
  induction n with
  | zero => rfl
  | succ m ih =>
      rw [show ledStream gamma ch (m + 1) =
        ledStream gamma ch m ++ pixelStream gamma ch (ch.leds m) from rfl]
      rw [List.length_append, ih, pixelStream_length]
      ring

lemma getD_append_left {α : Type} (l1 l2 : List α) (n : Nat) (d : α)
    (h : n < l1.length) : (l1 ++ l2).getD n d = l1.getD n d := by
  rw [List.getD_eq_getElem?_getD, List.getD_eq_getElem?_getD,
    List.getElem?_append_left h]

lemma getD_append_right {α : Type} (l1 l2 : List α) (n : Nat) (d : α)
    (h : l1.length ≤ n) : (l1 ++ l2).getD n d = l2.getD (n - l1.length) d := by
  rw [List.getD_eq_getElem?_getD, List.getD_eq_getElem?_getD,
    List.getElem?_append_right h]

lemma ledStream_getD (gamma : Nat → Nat) (ch : ws2811_channel) (n i r : Nat)
    (hi : i < n) (hr : r < 72) :
    (ledStream gamma ch n).getD (72 * i + r) false =
      (pixelStream gamma ch (ch.leds i)).getD r false := by
  induction n with
  | zero => omega
  | succ m ih =>
      have hstream : ledStream gamma ch (m + 1) =
          ledStream gamma ch m ++ pixelStream gamma ch (ch.leds m) := rfl
      rw [hstream]
      rcases Nat.lt_or_ge i m with him | him
      · rw [getD_append_left _ _ _ _ (by rw [ledStream_length]; omega)]
        exact ih him
      · have hieq : i = m := by omega
        subst hieq
        rw [getD_append_right _ _ _ _ (by rw [ledStream_length]; omega),
          ledStream_length]
        have hsub : 72 * i + r - 72 * i = r := by omega
        rw [hsub]

lemma pixelStream_decomp (gamma : Nat → Nat) (ch : ws2811_channel) (led : Nat) :
    pixelStream gamma ch led =
      byteStream ch.invert (gamma (color_scaled led (ws2811_rshift ch) (ws2811_scale ch))) ++
        (byteStream ch.invert (gamma (color_scaled led (ws2811_gshift ch) (ws2811_scale ch))) ++
          byteStream ch.invert (gamma (color_scaled led (ws2811_bshift ch) (ws2811_scale ch)))) := by
  unfold pixelStream pixelColors
  simp

lemma pixelStream_getD (gamma : Nat → Nat) (ch : ws2811_channel) (led : Nat)
    (j r : Nat) (hj : j < 3) (hr : r < 24) :
    (pixelStream gamma ch led).getD (24 * j + r) false =
      (byteStream ch.invert ((pixelColors gamma ch led).getD j 0)).getD r false := by
  rw [pixelStream_decomp]
  interval_cases j
  · rw [Nat.mul_zero, Nat.zero_add,
      getD_append_left _ _ _ _ (by rw [byteStream_length]; omega)]
    rfl
  · rw [getD_append_right _ _ _ _ (by rw [byteStream_length]; omega),
      byteStream_length,
      getD_append_left _ _ _ _ (by rw [byteStream_length]; omega)]
    have hsub : 24 * 1 + r - 24 = r := by omega
    rw [hsub]
    rfl
  · rw [getD_append_right _ _ _ _ (by rw [byteStream_length]; omega),
      byteStream_length,
      getD_append_right _ _ _ _ (by rw [byteStream_length]; omega),
      byteStream_length]
    have hsub : 24 * 2 + r - 24 - 24 = r := by omega
    rw [hsub]
    rfl

lemma byteStream_getD (invert : Bool) (byte : Nat) (k l : Nat)
    (hk : k ≤ 7) (hl : l ≤ 2) :
    (byteStream invert byte).getD (3 * (7 - k) + (2 - l)) false =
      (symBits (ws2811_symbol invert (byte &&& (1 <<< k) != 0))).getD (2 - l) false := by
  interval_cases k <;> interval_cases l <;>
    simp [byteStream, symBits]

/-- The relation between the C bit test `x & (1 << k)` and `Nat.testBit`. -/
lemma bne_land_shift (byte k : Nat) :
    (byte &&& (1 <<< k) != 0) = byte.testBit k := by
  rw [Nat.one_shiftLeft, Nat.and_two_pow]
  cases h : byte.testBit k <;>
    simp [Nat.pos_iff_ne_zero, Nat.pos_pow_of_pos]

/-! ### Claim C1: the render encoding is the specified symbol stream -/

/-- The 3-bit pulse patterns exactly as the specification words them:
a logical 1 bit maps to the pattern `110` (0x6), a logical 0 bit to `100`
(0x4); when the inversion flag is set, the two patterns are swapped. -/
def claimSymbol (invert : Bool) (bit : Bool) : Nat :=
  if invert then (if bit then 0x4 else 0x6) else (if bit then 0x6 else 0x4)

lemma symBits_claimSymbol (invert b : Bool) (l : Fin 3) :
    (symBits (ws2811_symbol invert b)).getD (2 - l.val) false =
      (claimSymbol invert b).testBit l.val := by
  revert invert b l
  decide

/-- C1: for pixel `i`, colour channel `j` (red, green, blue selected by the
configured shifts), data bit `k` of the gamma-corrected brightness-scaled
channel byte taken most-significant-bit first, and symbol bit `l`, the bit
that `ws2811_render` leaves in the buffer at stream position
`72 i + 24 j + 3 (7-k) + (2-l)` (packed from bit 31 of word 0 downward,
continuing across word boundaries without gaps) is bit `l` of the 3-bit
symbol `110` when the data bit is 1 and `100` when it is 0, the two patterns
being swapped when the inversion flag is set. -/
theorem render_encodes_symbols (gamma : Nat → Nat) (ch : ws2811_channel)
    (buf : Nat → Nat) (i j k l : Nat)
    (hi : i < ch.count) (hj : j < 3) (hk : k ≤ 7) (hl : l ≤ 2) :
    bitAt (ws2811_encode gamma ch buf).buf
        (72 * i + (24 * j + (3 * (7 - k) + (2 - l)))) =
      (claimSymbol ch.invert
        (((pixelColors gamma ch (ch.leds i)).getD j 0).testBit k)).testBit l := by
  have h0 : (initEncState buf).bitpos ≤ 31 := Nat.le_refl 31
  have hpos : encPos (initEncState buf) = 0 := by
    unfold initEncState encPos
    norm_num
  unfold ws2811_encode
  rw [encodeLeds_eq, writeStream_bitAt _ _ h0, hpos, ledStream_length,
    if_pos ⟨Nat.zero_le _, by omega⟩, Nat.sub_zero,
    ledStream_getD _ _ _ i _ hi (by omega),
    pixelStream_getD _ _ _ j _ hj (by omega),
    byteStream_getD _ _ k l hk hl, bne_land_shift]
  exact symBits_claimSymbol ch.invert _ ⟨l, by omega⟩

/-- A concrete example channel: one led holding `0xFF0000`, full brightness,
RGB strip order (`0x100800`), no inversion. -/
def exampleChannel : ws2811_channel := ⟨1, fun _ => 0xFF0000, 255, 0x100800, false⟩

/-- Witness for C1: pixel 0, red channel, most significant bit, first symbol bit. -/
theorem render_encodes_symbols_witness :
    0 < exampleChannel.count ∧
      bitAt (ws2811_encode (fun v => v) exampleChannel (fun _ => 0)).buf
          (72 * 0 + (24 * 0 + (3 * (7 - 7) + (2 - 2)))) =
        (claimSymbol exampleChannel.invert
          (((pixelColors (fun v => v) exampleChannel
              (exampleChannel.leds 0)).getD 0 0).testBit 7)).testBit 2 :=
  ⟨by decide,
    render_encodes_symbols (fun v => v) exampleChannel (fun _ => 0) 0 0 7 2
      (by decide) (by decide) (by decide) (by decide)⟩

/-! ### Claim C10: render leaves the reset-latch region untouched -/

/-- C10: the encoding loop of `ws2811_render` writes only the first
`72 * count` bits of the buffer bitstream; every buffer bit at or beyond
stream position `72 * count` keeps its previous value, so the trailing
reset-latch region is never cleared by render itself. -/
theorem render_preserves_tail (gamma : Nat → Nat) (ch : ws2811_channel)
    (buf : Nat → Nat) (q : Nat) (hq : 72 * ch.count ≤ q) :
    bitAt (ws2811_encode gamma ch buf).buf q = bitAt buf q := by
  have h0 : (initEncState buf).bitpos ≤ 31 := Nat.le_refl 31
  have hpos : encPos (initEncState buf) = 0 := by
    unfold initEncState encPos
    norm_num
  unfold ws2811_encode
  rw [encodeLeds_eq, writeStream_bitAt _ _ h0, hpos, ledStream_length,
    if_neg (by omega)]
  rfl

/-- Witness for C10 at the example channel and the first bit after the pixel data. -/
theorem render_preserves_tail_witness :
    72 * exampleChannel.count ≤ 72 ∧
      bitAt (ws2811_encode (fun v => v) exampleChannel (fun _ => 0)).buf 72 =
        bitAt (fun _ => 0) 72 :=
  ⟨by decide,
    render_preserves_tail (fun v => v) exampleChannel (fun _ => 0) 72 (by decide)⟩

/-! ### Claim C8: render never writes a word outside the sized buffer -/

/-- The word indices written by the encoding loop, in order: bit `t` of the
stream goes to word `t / 32`. -/
lemma encode_writes_eq (gamma : Nat → Nat) (ch : ws2811_channel) (buf : Nat → Nat) :
    (ws2811_encode gamma ch buf).writes =
      (List.range (72 * ch.count)).map (fun t => (0 + t) / 32) := by
  have h0 : (initEncState buf).bitpos ≤ 31 := Nat.le_refl 31
  have hpos : encPos (initEncState buf) = 0 := by
    unfold initEncState encPos
    norm_num
  unfold ws2811_encode
  rw [encodeLeds_eq, writeStream_writes _ _ h0, hpos, ledStream_length]
  rfl

/-- C8: for every channel and tick rate, every buffer word index the encoding
loop of `ws2811_render` writes is strictly below `PCM_BYTE_COUNT(count, freq) / 4`,
and with zero leds the encoding loop performs no writes at all. -/
theorem render_writes_in_bounds (gamma : Nat → Nat) (ch : ws2811_channel)
    (buf : Nat → Nat) (freq : Nat) (hf : 0 < freq) :
    (∀ w ∈ (ws2811_encode gamma ch buf).writes,
        w < PCM_BYTE_COUNT ch.count freq / 4) ∧
      (ch.count = 0 → (ws2811_encode gamma ch buf).writes = []) := by
  have hwr := encode_writes_eq gamma ch buf
  constructor
  · intro w hw
    rw [hwr] at hw
    obtain ⟨t, ht, hwt⟩ := List.mem_map.mp hw
    have htlt : t < 72 * ch.count := List.mem_range.mp ht
    subst hwt
    have h8 : (2 : Nat) ^ 3 = 8 := by norm_num
    unfold PCM_BYTE_COUNT LED_BIT_COUNT LED_RESET_uS
    rw [Nat.shiftRight_eq_div_pow, h8]
    omega
  · intro hc
    rw [hwr, hc]
    simp

/-- Witness for C8 at the example channel and 800 kHz. -/
theorem render_writes_in_bounds_witness :
    0 < 800000 ∧
      ((∀ w ∈ (ws2811_encode (fun v => v) exampleChannel (fun _ => 0)).writes,
          w < PCM_BYTE_COUNT exampleChannel.count 800000 / 4) ∧
        (exampleChannel.count = 0 →
          (ws2811_encode (fun v => v) exampleChannel (fun _ => 0)).writes = [])) :=
  ⟨by decide,
    render_writes_in_bounds (fun v => v) exampleChannel (fun _ => 0) 800000 (by decide)⟩

/-! ### Claim C4: the buffer zero-fill of initialization (`pcm_raw_init`) -/

/-- `pcm_raw_init` (lines 359-369).  The loop header runs `wordcount` times,
but the body is `pcm_raw[wordcount] = 0x0;` — it writes the word one past the
intended range on every iteration and never writes `pcm_raw[i]`. -/
def pcm_raw_init (count freq : Nat) (buf : Nat → Nat) : Nat → Nat :=
  (List.range (PCM_wordcount count freq)).foldl
    (fun b _ => fun idx => if idx = PCM_wordcount count freq then 0 else b idx) buf

/-- C4 (code bug): with 0 leds at 800 kHz the sized buffer is 6 words, and on
a buffer previously holding 1 in every word, `pcm_raw_init` leaves word 0
(and every word below `wordcount`) untouched while zeroing the out-of-range
word 6 — the buffer is not zero-filled as the claim (and the function's own
doc comment) requires. -/
theorem pcm_raw_init_bug :
    PCM_wordcount 0 800000 = 6 ∧
      pcm_raw_init 0 800000 (fun _ => 1) 0 = 1 ∧
      pcm_raw_init 0 800000 (fun _ => 1) 5 = 1 ∧
      pcm_raw_init 0 800000 (fun _ => 1) 6 = 0 := by
  refine ⟨by decide, ?_, ?_, ?_⟩ <;> decide

/-! ### Claim C7: the completion wait (`ws2811_wait`) -/

/-- The two DMA channel status bits read by `ws2811_wait`:
`RPI_DMA_CS_ACTIVE` and `RPI_DMA_CS_ERROR`. -/
structure DmaCS where
  active : Bool
  error : Bool

/-- The polling loop of `ws2811_wait` (lines 554-558):
`while ((dma->cs & ACTIVE) && !(dma->cs & ERROR)) usleep(10);`.
`cs t` is the status read at poll `t`; the result is the poll index at which
the loop exits — equal to the number of `usleep(10)` delays executed — or
`none` when it does not exit within `fuel` polls. -/
def ws2811_wait_loop (cs : Nat → DmaCS) : Nat → Nat → Option Nat
  | 0, _ => none
  | fuel + 1, t =>
      if (cs t).active && !(cs t).error then ws2811_wait_loop cs fuel (t + 1)
      else some t

/-- `ws2811_wait` (lines 550-567): poll until the active bit clears or the
error bit sets; if the error bit is set, report the debug register's raw
value and fail, otherwise succeed.  The transmit buffer is passed through
untouched — the function performs no buffer write.  The result carries
(return value, buffer, number of delay iterations executed). -/
def ws2811_wait (cs : Nat → DmaCS) (debug : Nat) (buf : Nat → Nat) (fuel : Nat) :
    Option (Except Nat Unit × (Nat → Nat) × Nat) :=
  match ws2811_wait_loop cs fuel 0 with
  | none => none
  | some t =>
      if (cs t).error then some (Except.error debug, buf, t)
      else some (Except.ok (), buf, t)

/-- C7: when the active and error bits are both clear at entry, `ws2811_wait`
returns success immediately, with zero delay iterations, leaving the buffer
unchanged; when the error bit is already set at entry, it fails immediately,
reporting the debug register's raw value, with zero delay iterations and the
buffer unchanged. -/
theorem ws2811_wait_spec (cs : Nat → DmaCS) (debug : Nat) (buf : Nat → Nat)
    (fuel : Nat) (hf : 0 < fuel) :
    ((cs 0).active = false → (cs 0).error = false →
        ws2811_wait cs debug buf fuel = some (Except.ok (), buf, 0)) ∧
      ((cs 0).error = true →
        ws2811_wait cs debug buf fuel = some (Except.error debug, buf, 0)) := by
  obtain ⟨f, rfl⟩ : ∃ f, fuel = f + 1 := ⟨fuel - 1, by omega⟩
  constructor
  · intro ha he
    unfold ws2811_wait ws2811_wait_loop
    simp [ha, he]
  · intro he
    unfold ws2811_wait ws2811_wait_loop
    simp [he]

/-- A DMA status register that is idle: transfer complete, no error. -/
def idleCS : Nat → DmaCS := fun _ => ⟨false, false⟩

/-- Witness for C7 on the idle status register with one unit of fuel. -/
theorem ws2811_wait_spec_witness :
    0 < 1 ∧
      (((idleCS 0).active = false → (idleCS 0).error = false →
        ws2811_wait idleCS 7 (fun _ => 3) 1 = some (Except.ok (), fun _ => 3, 0)) ∧
      ((idleCS 0).error = true →
        ws2811_wait idleCS 7 (fun _ => 3) 1 = some (Except.error 7, fun _ => 3, 0))) :=
  ⟨by decide, ws2811_wait_spec idleCS 7 (fun _ => 3) 1 (by decide)⟩

/-! ### Claim C3: ordering of encode, wait, and DMA start in `ws2811_render` -/

/-- The externally visible actions of `ws2811_render`, in program order. -/
inductive RenderEv where
  | write (w : Nat)
  | wait
  | start
deriving DecidableEq

/-- Whether an action is a buffer write. -/
def RenderEv.isWrite : RenderEv → Bool
  | .write _ => true
  | _ => false

/-- The action trace of `ws2811_render` (lines 577-638): the encoding loop's
buffer writes (lines 591-627) come first, then the `ws2811_wait` call
(line 630), then `dma_start` (line 635). -/
def renderTrace (gamma : Nat → Nat) (ch : ws2811_channel) (buf : Nat → Nat) :
    List RenderEv :=
  (ws2811_encode gamma ch buf).writes.map RenderEv.write ++
    [RenderEv.wait, RenderEv.start]

/-- C3 counterexample: on the one-pixel example channel, the claim that the
completion wait precedes every buffer write is false: the trace has a buffer
write at index 0 and the wait only at index 72. -/
theorem render_wait_order_cex :
    ¬ (∀ (i j : Nat) (e : RenderEv),
        (renderTrace (fun v => v) exampleChannel (fun _ => 0)).get? i =
            some RenderEv.wait →
          (renderTrace (fun v => v) exampleChannel (fun _ => 0)).get? j = some e →
            e.isWrite = true → i < j) := by
  intro hcl
  have htr : renderTrace (fun v => v) exampleChannel (fun _ => 0) =
      ((List.range (72 * exampleChannel.count)).map
        (fun t => (0 + t) / 32)).map RenderEv.write ++
        [RenderEv.wait, RenderEv.start] := by
    unfold renderTrace
    rw [encode_writes_eq]
  have h1 : (renderTrace (fun v => v) exampleChannel (fun _ => 0)).get? 72 =
      some RenderEv.wait := by
    rw [htr]
    decide
  have h2 : (renderTrace (fun v => v) exampleChannel (fun _ => 0)).get? 0 =
      some (RenderEv.write 0) := by
    rw [htr]
    decide
  exact absurd (hcl 72 0 (RenderEv.write 0) h1 h2 rfl) (by omega)

/-- C3 amended: in `ws2811_render` the completion wait is sequenced after
every buffer write of the encoding loop and immediately before the DMA start,
so a new transfer starts only after the prior one completed — but the buffer
is mutated before the wait, not after it. -/
theorem render_wait_after_writes (gamma : Nat → Nat) (ch : ws2811_channel)
    (buf : Nat → Nat) (i j : Nat) (e : RenderEv)
    (hw : (renderTrace gamma ch buf).get? i = some RenderEv.wait)
    (he : (renderTrace gamma ch buf).get? j = some e)
    (hwr : e.isWrite = true) :
    j < i ∧ (renderTrace gamma ch buf).get? (i + 1) = some RenderEv.start := by
  have hTr : renderTrace gamma ch buf =
      (ws2811_encode gamma ch buf).writes.map RenderEv.write ++
        [RenderEv.wait, RenderEv.start] := rfl
  set W := (ws2811_encode gamma ch buf).writes with hW
  have hi : (W.map RenderEv.write).length ≤ i := by
    by_contra hlt
    push_neg at hlt
    have h2 : i < W.length := by simpa using hlt
    rw [hTr, List.get?_append hlt, List.get?_map, List.get?_eq_get h2] at hw
    simp at hw
  have hi0 : i = (W.map RenderEv.write).length := by
    rw [hTr, List.get?_append_right hi] at hw
    rcases hd : i - (W.map RenderEv.write).length with _ | m
    · omega
    · rw [hd] at hw
      rcases m with _ | m2 <;> simp at hw
  have hj : j < (W.map RenderEv.write).length := by
    by_contra hge
    push_neg at hge
    rw [hTr, List.get?_append_right hge] at he
    rcases hd : j - (W.map RenderEv.write).length with _ | m
    · rw [hd] at he
      have : e = RenderEv.wait := by simpa using he.symm
      rw [this] at hwr
      simp [RenderEv.isWrite] at hwr
    · rw [hd] at he
      rcases m with _ | m2
      · have : e = RenderEv.start := by simpa using he.symm
        rw [this] at hwr
        simp [RenderEv.isWrite] at hwr
      · simp at he
  refine ⟨by omega, ?_⟩
  rw [hTr, List.get?_append_right (by omega)]
  have hidx : i + 1 - (W.map RenderEv.write).length = 1 := by omega
  rw [hidx]
  rfl

/-- Witness for C3's amended claim on the one-pixel example channel. -/
theorem render_wait_after_writes_witness :
    ((renderTrace (fun v => v) exampleChannel (fun _ => 0)).get? 72 =
        some RenderEv.wait) ∧
      ((renderTrace (fun v => v) exampleChannel (fun _ => 0)).get? 0 =
        some (RenderEv.write 0)) ∧
      (RenderEv.write 0).isWrite = true ∧
      (0 < 72 ∧ (renderTrace (fun v => v) exampleChannel (fun _ => 0)).get? (72 + 1) =
        some RenderEv.start) := by
  have htr : renderTrace (fun v => v) exampleChannel (fun _ => 0) =
      ((List.range (72 * exampleChannel.count)).map
        (fun t => (0 + t) / 32)).map RenderEv.write ++
        [RenderEv.wait, RenderEv.start] := by
    unfold renderTrace
    rw [encode_writes_eq]
  have h1 : (renderTrace (fun v => v) exampleChannel (fun _ => 0)).get? 72 =
      some RenderEv.wait := by
    rw [htr]
    decide
  have h2 : (renderTrace (fun v => v) exampleChannel (fun _ => 0)).get? 0 =
      some (RenderEv.write 0) := by
    rw [htr]
    decide
  exact ⟨h1, h2, rfl,
    render_wait_after_writes (fun v => v) exampleChannel (fun _ => 0) 72 0
      (RenderEv.write 0) h1 h2 rfl⟩

/-! ### Claims C5 and C9: initialization failure handling

`ws2811_init` (lines 419-520) calls a sequence of fallible collaborators.
An oracle records which of those calls succeed; the model tracks which
resources are held when `ws2811_init` returns, and whether the teardown
routine `ws2811_cleanup` was invoked. -/

/-- Success/failure outcome of an operation returning 0 / -1. -/
inductive CRes where
  | ok
  | error
deriving DecidableEq

/-- Which fallible steps of `ws2811_init` succeed:
`rpi_hw_detect` (line 424), `malloc` of the device struct (line 431),
`mbox_open` (line 444), `mem_alloc` (line 450), `mem_lock` (line 457),
`malloc` of the led array (line 473), `map_registers` (line 495) and
`gpio_init` (line 501).  `setup_pcm` (line 508) always returns 0, so it has
no oracle entry. -/
structure InitOracle where
  hw_detect : Bool
  malloc_device : Bool
  mbox_open : Bool
  mem_alloc : Bool
  mem_lock : Bool
  malloc_leds : Bool
  map_regs : Bool
  gpio_ok : Bool
deriving DecidableEq

/-- The resources `ws2811_init` can hold: the device struct, the open mailbox
handle, the allocated memory reference, the locked bus address, the mapped
buffer, the led array, and the fully mapped register windows. -/
structure Resources where
  device : Bool
  mboxHandle : Bool
  memRef : Bool
  memLocked : Bool
  bufMapped : Bool
  leds : Bool
  regs : Bool
deriving DecidableEq

/-- No resources held. -/
def noResources : Resources := ⟨false, false, false, false, false, false, false⟩

/-- `ws2811_cleanup` (lines 378-402): frees the led array; then, only when
the mailbox handle is valid, unmaps the buffer, unlocks and frees the memory
and closes the handle; then frees the device struct.  It never unmaps the
register windows. -/
def ws2811_cleanup (r : Resources) : Resources :=
  ⟨false,
    false,
    if r.mboxHandle then false else r.memRef,
    if r.mboxHandle then false else r.memLocked,
    if r.mboxHandle then false else r.bufMapped,
    false,
    r.regs⟩

/-- `ws2811_init` (lines 419-520) as a function of the oracle, returning the
result, the resources still held on return, and whether `ws2811_cleanup` ran.
The early failure paths (lines 427, 434, 447, 454, 461) `return -1` directly;
only the `goto err` paths (lines 476, 497, 504, 511) run `ws2811_cleanup`.
On the `mem_lock` failure path (line 460) the code calls
`mem_free(handle, size)` — passing the byte size where the memory reference
is expected — so the memory reference is not actually released there.
`gpio_init` failure (line 503) additionally runs `unmap_registers` first.
`setup_pcm` always returns 0, so its failure branch (lines 508-512) is dead. -/
def ws2811_init (o : InitOracle) : CRes × Resources × Bool :=
  if !o.hw_detect then (CRes.error, noResources, false)
  else if !o.malloc_device then (CRes.error, noResources, false)
  else
    let r1 : Resources := ⟨true, false, false, false, false, false, false⟩
    if !o.mbox_open then (CRes.error, r1, false)
    else
      let r2 : Resources := ⟨true, true, false, false, false, false, false⟩
      if !o.mem_alloc then (CRes.error, r2, false)
      else
        let r3 : Resources := ⟨true, true, true, false, false, false, false⟩
        if !o.mem_lock then (CRes.error, r3, false)
        else
          let r4 : Resources := ⟨true, true, true, true, true, false, false⟩
          if !o.malloc_leds then (CRes.error, ws2811_cleanup r4, true)
          else
            let r5 : Resources := ⟨true, true, true, true, true, true, false⟩
            if !o.map_regs then (CRes.error, ws2811_cleanup r5, true)
            else
              let r6 : Resources := ⟨true, true, true, true, true, true, true⟩
              if !o.gpio_ok then
                (CRes.error, ws2811_cleanup ⟨true, true, true, true, true, true, false⟩, true)
              else (CRes.ok, r6, false)

/-- C5 counterexample: when `mbox_open` fails, `ws2811_init` returns the
error directly — the already-allocated device struct is still held and the
teardown routine was never invoked, contradicting the claim that every
failure releases all earlier acquisitions through the single teardown
routine. -/
theorem init_rollback_cex :
    ws2811_init ⟨true, true, false, true, true, true, true, true⟩ =
      (CRes.error, ⟨true, false, false, false, false, false, false⟩, false) := by
  decide

/-- C5 amended: failures at the led-array allocation, register mapping or
GPIO configuration steps do funnel through `ws2811_cleanup` and release every
tracked resource, but failures at the mailbox-open, memory-alloc and
memory-lock steps return directly, without the teardown routine, leaking the
device struct (and, at the later of those steps, the mailbox handle and the
memory reference — the lock-failure path even calls the memory free with the
size instead of the reference). -/
theorem init_rollback_amended (o : InitOracle)
    (h1 : o.hw_detect = true) (h2 : o.malloc_device = true)
    (h3 : o.mbox_open = true) (h4 : o.mem_alloc = true) (h5 : o.mem_lock = true)
    (h6 : ¬(o.malloc_leds = true ∧ o.map_regs = true ∧ o.gpio_ok = true)) :
    ws2811_init o = (CRes.error, noResources, true) := by
  obtain ⟨a, b, c, d, e, f, g, h⟩ := o
  simp only at h1 h2 h3 h4 h5 h6
  subst h1 h2 h3 h4 h5
  revert h6
  revert f g h
  decide

/-- Witness for C5's amended claim: the led-array allocation fails. -/
theorem init_rollback_amended_witness :
    (true = true ∧ true = true ∧ true = true ∧ true = true ∧ true = true ∧
      ¬(false = true ∧ true = true ∧ true = true)) ∧
      ws2811_init ⟨true, true, true, true, true, false, true, true⟩ =
        (CRes.error, noResources, true) :=
  ⟨⟨rfl, rfl, rfl, rfl, rfl, by decide⟩,
    init_rollback_amended ⟨true, true, true, true, true, false, true, true⟩
      rfl rfl rfl rfl rfl (by decide)⟩

/-! ### Claim C9: register-window mapping failure -/

/-- Which calls inside `map_registers` (lines 118-157) succeed:
`dmanum_to_offset` (nonzero, line 125) and the four `mapmem` calls for the
DMA, PCM, GPIO and clock-manager windows (lines 132, 138, 144, 150). -/
structure MapOracle where
  dma_offset_ok : Bool
  map_dma : Bool
  map_pcm : Bool
  map_gpio : Bool
  map_cm_pcm : Bool
deriving DecidableEq

/-- Which of the four register windows are currently mapped. -/
structure RegWindows where
  dma : Bool
  pcm : Bool
  gpio : Bool
  cm_pcm : Bool
deriving DecidableEq

/-- No register window mapped. -/
def noWindows : RegWindows := ⟨false, false, false, false⟩

/-- `map_registers` (lines 118-157): maps the DMA, PCM, GPIO and clock
windows in that order; on any failure it returns -1 immediately, leaving
every window mapped so far still mapped. -/
def map_registers (o : MapOracle) : CRes × RegWindows :=
  if !o.dma_offset_ok then (CRes.error, noWindows)
  else if !o.map_dma then (CRes.error, noWindows)
  else if !o.map_pcm then (CRes.error, ⟨true, false, false, false⟩)
  else if !o.map_gpio then (CRes.error, ⟨true, true, false, false⟩)
  else if !o.map_cm_pcm then (CRes.error, ⟨true, true, true, false⟩)
  else (CRes.ok, ⟨true, true, true, true⟩)

/-- `unmap_registers` (lines 166-189): unmaps every non-null window. -/
def unmap_registers (w : RegWindows) : RegWindows := noWindows

/-- The portion of `ws2811_init` from the `map_registers` call onward
(lines 495-514), tracking the register windows: when `map_registers` fails,
control goes to `err` (line 497) and `ws2811_cleanup` runs — which never
unmaps register windows, so whatever `map_registers` left mapped stays
mapped; `unmap_registers` runs only when `gpio_init` fails after a fully
successful mapping (line 503). -/
def ws2811_init_map_phase (o : MapOracle) (gpio_ok : Bool) : CRes × RegWindows :=
  match map_registers o with
  | (CRes.error, w) => (CRes.error, w)
  | (CRes.ok, w) =>
      if !gpio_ok then (CRes.error, unmap_registers w)
      else (CRes.ok, w)

/-- C9 counterexample: when the PCM window fails to map after the DMA window
was mapped, initialization propagates the error while the DMA window is still
mapped — the already-mapped window is not unmapped, contradicting the claim. -/
theorem map_registers_unwind_cex :
    ws2811_init_map_phase ⟨true, true, false, true, true⟩ true =
      (CRes.error, ⟨true, false, false, false⟩) := by
  decide

/-- C9 amended: when any of the later `mapmem` calls fails after the DMA
window was mapped, `map_registers` returns the error immediately and
`ws2811_init` propagates it with the DMA window (and any other window mapped
before the failing one) still mapped; no unmapping happens on the mapping
failure path. -/
theorem map_registers_unwind_amended (o : MapOracle) (g : Bool)
    (h1 : o.dma_offset_ok = true) (h2 : o.map_dma = true)
    (h3 : o.map_pcm = false ∨ o.map_gpio = false ∨ o.map_cm_pcm = false) :
    (ws2811_init_map_phase o g).1 = CRes.error ∧
      (ws2811_init_map_phase o g).2.dma = true := by
  obtain ⟨a, b, c, d, e⟩ := o
  simp only at h1 h2 h3
  subst h1 h2
  revert h3
  revert c d e g
  decide

/-- Witness for C9's amended claim: the PCM window mapping fails. -/
theorem map_registers_unwind_amended_witness :
    (true = true ∧ true = true ∧
      (false = false ∨ true = false ∨ true = false)) ∧
      ((ws2811_init_map_phase ⟨true, true, false, true, true⟩ true).1 = CRes.error ∧
        (ws2811_init_map_phase ⟨true, true, false, true, true⟩ true).2.dma = true) :=
  ⟨⟨rfl, rfl, Or.inl rfl⟩,
    map_registers_unwind_amended ⟨true, true, false, true, true⟩ true
      rfl rfl (Or.inl rfl)⟩

end WS2811
